import Mathlib

/- Verification development for the SafeWalk front-end's authenticated
request pipeline (src/api/client.ts): the token store, the single-flight
refresh coordinator, the request executor and the session facade, together
with the properties stated for them.

The TypeScript client is embedded shallowly:
  * JavaScript runtime values that flow through `JSON.parse`,
    `response.json()` and thrown errors are modelled by `JsVal`
    (`none : Option JsVal` plays the role of `undefined`).
  * The client's fields `accessToken` / `refreshToken` and the single
    `localStorage` record keyed `safewalk_tokens` form `ClientState`.
  * Network I/O is an oracle (`Wire`): the k-th `fetch` performed by an
    execution observes `wire.outcomes k`, which is either a transport
    failure (the fetch promise rejects) or a settled HTTP response.
  * `request` is big-step: it returns the delivered or thrown value, the
    final client state, the next unused wire index, a log of the HTTP
    attempts it issued (URL and headers) and the number of times it
    invoked the refresh coordinator.
  * The single-flight behaviour of `refreshAccessToken` under concurrent
    callers is modelled separately as a small-step interleaved system
    (`SFState`/`sfStep`), reflecting the source's cooperative
    single-threaded scheduling: code between `await` points runs
    atomically. -/

namespace SafeWalk

/-- JavaScript/JSON runtime values, as relevant to the client. Strings'
index properties are not modelled (no property under study spreads a
string-valued error body). -/
inductive JsVal where
  | null : JsVal
  | bool (b : Bool) : JsVal
  | num (n : Int) : JsVal
  | str (s : String) : JsVal
  | obj (fields : List (String × JsVal)) : JsVal


/-- JavaScript truthiness of a value. -/
def JsVal.truthy : JsVal → Bool
  | .null => false
  | .bool b => b
  | .num n => n != 0
  | .str s => s != ""
  | .obj _ => true

/-- JavaScript truthiness of a possibly-undefined value (`none` is
`undefined`, hence falsy). -/
def truthyOpt : Option JsVal → Bool
  | none => false
  | some v => v.truthy

/-- Whether a value is the JavaScript `null` — the one `JSON.parse`
result on which property access throws a `TypeError` instead of
yielding `undefined`. -/
def JsVal.isNull : JsVal → Bool
  | .null => true
  | _ => false

/-- First binding of a key in an association list. -/
def getEntry {α : Type} : List (String × α) → String → Option α
  | [], _ => none
  | (k, v) :: rest, key => if k = key then some v else getEntry rest key

/-- Non-throwing property access `v[key]`: an object yields the field or
`undefined` (`none`), a non-null primitive autoboxes and yields
`undefined`. In JavaScript the access throws a `TypeError` when the
receiver is `null`; the call sites where a null receiver can occur
(`loadTokens`, and `setTokens` reached from `refreshAccessToken` or
`login`/`register`) model that thrown-error path explicitly via
`JsVal.isNull`, so this function is only consulted for receivers on
which the source's access returns. -/
def JsVal.getField : JsVal → String → Option JsVal
  | .obj fields, key => getEntry fields key
  | _, _ => none

/-- Assignment of a key in an association list: an existing key keeps its
position and receives the new value, a fresh key is appended — the
semantics of writing a property in a JavaScript object literal spread. -/
def setEntry {α : Type} : List (String × α) → String → α → List (String × α)
  | [], key, v => [(key, v)]
  | (k, w) :: rest, key, v =>
    if k = key then (key, v) :: rest else (k, w) :: setEntry rest key v

/-- The value of `{ ...errorData, status: s }`: an object body contributes
its own fields and then `status` is assigned; a primitive body contributes
no (modelled) fields. -/
def spreadWithStatus : JsVal → Nat → JsVal
  | .obj fields, s => .obj (setEntry fields "status" (.num s))
  | _, s => .obj [("status", .num s)]

/-- A value of the shape the backend documents for credential pairs:
both token fields present as nonempty (truthy) bearer strings. -/
def isCredentialPair (v : JsVal) : Bool :=
  match v.getField "accessToken", v.getField "refreshToken" with
  | some (.str a), some (.str b) => a != "" && b != ""
  | _, _ => false

/-- The object value of a credential pair with the given tokens. -/
def pairVal (a b : String) : JsVal :=
  .obj [("accessToken", .str a), ("refreshToken", .str b)]

/-- Contents of the persisted `safewalk_tokens` record: either a string
that `JSON.parse` rejects, or the value it yields. An absent record (and
the equally falsy empty-string record) is `none : Option StoredRecord`. -/
inductive StoredRecord where
  | unparseable : StoredRecord
  | parsed (v : JsVal) : StoredRecord


/-- The ApiClient's mutable state: the two in-memory token fields and the
persisted record. `isRefreshing`/`refreshPromise` are only observable
under interleaving and live in the small-step model `SFState` below. -/
structure ClientState where
  accessToken : Option JsVal
  refreshToken : Option JsVal
  storage : Option StoredRecord


/-- `clearTokens()`: nulls both fields and removes the record. -/
def clearTokens (_st : ClientState) : ClientState := ⟨none, none, none⟩

/-- `setTokens(tokens)`: copies the value's token fields into memory and
persists `JSON.stringify(tokens)` (which parses back to the same value).
The TypeScript signature says `AuthTokens`, but the arguments reaching it
are unvalidated `response.json()` results, so the model takes a `JsVal`.
Modelled for non-null values only: on `null` the very first member
access `tokens.accessToken` throws a `TypeError` before any mutation,
and each call site models that path itself (`refreshAccessToken` catches
it and clears; `login`/`register` let the raw `TypeError` escape). -/
def setTokens (tokens : JsVal) (_st : ClientState) : ClientState :=
  ⟨tokens.getField "accessToken", tokens.getField "refreshToken",
    some (.parsed tokens)⟩

/-- `loadTokens()`: reads the record; a missing (or empty, hence falsy)
record leaves the fields alone; a record that fails `JSON.parse` — or
one that parses to `null`, on which the subsequent `parsed.accessToken`
access throws a `TypeError` — lands in the catch and clears; any other
parsed value has its two token fields copied into memory without shape
validation (non-null primitives autobox, yielding absent fields). -/
def loadTokens (st : ClientState) : ClientState :=
  match st.storage with
  | none => st
  | some .unparseable => clearTokens st
  | some (.parsed v) =>
    if v.isNull then clearTokens st
    else { st with accessToken := v.getField "accessToken",
                   refreshToken := v.getField "refreshToken" }

/-- `new ApiClient()`: fields start `null`, then the constructor runs
`loadTokens()` against whatever the storage holds. -/
def constructClient (storage : Option StoredRecord) : ClientState :=
  loadTokens ⟨none, none, storage⟩

/-- `getAccessToken()`. -/
def getAccessToken (st : ClientState) : Option JsVal := st.accessToken

/-- `isAuthenticated()`: double-negation truthiness of the access token. -/
def isAuthenticated (st : ClientState) : Bool := truthyOpt st.accessToken

/-- `logout()`. -/
def logout (st : ClientState) : ClientState := clearTokens st

/-- A settled HTTP response: status, status line, raw body text and the
outcome of attempting `JSON.parse` on that text (`none` = the parse
throws). `response.json()` and `JSON.parse(await response.text())` both
denote `parsed`. -/
structure HttpResponse where
  status : Nat
  statusText : String
  bodyText : String
  parsed : Option JsVal


/-- `Response.ok`: status in the inclusive range 200–299. -/
def HttpResponse.ok (r : HttpResponse) : Bool :=
  200 ≤ r.status && r.status ≤ 299

/-- One `fetch` either rejects before a response exists (transport
failure: DNS, connection reset, ...) or resolves with a response. -/
inductive FetchOutcome where
  | networkFailure : FetchOutcome
  | success (resp : HttpResponse) : FetchOutcome


/-- The network oracle: the k-th fetch issued observes `outcomes k`. -/
structure Wire where
  outcomes : Nat → FetchOutcome

/-- `refreshAccessToken()` as executed by a single (sequential) caller,
for whom `isRefreshing` is false on entry: a falsy refresh token returns
false at once with no fetch; otherwise one fetch is issued; a non-ok
response, transport failure, unparseable body, or a body parsing to
`null` (whose member access inside `setTokens` throws a `TypeError`
caught by the exchange's try) clears the tokens and returns false, and
an ok non-null parsed body is stored via `setTokens` and returns true.
Result: (returned boolean, client state, next wire index). -/
def refreshAccessToken (st : ClientState) (wire : Wire) (k : Nat) :
    Bool × ClientState × Nat :=
  if truthyOpt st.refreshToken = false then (false, st, k)
  else
    match wire.outcomes k with
    | .networkFailure => (false, clearTokens st, k + 1)
    | .success resp =>
      if resp.ok = false then (false, clearTokens st, k + 1)
      else
        match resp.parsed with
        | none => (false, clearTokens st, k + 1)
        | some tokens =>
          if tokens.isNull then (false, clearTokens st, k + 1)
          else (true, setTokens tokens st, k + 1)

/-- `VITE_API_BASE_URL || 'http://localhost:8080'`; the deployment-time
environment override is a constant of the model. -/
def BASE_URL : String := "http://localhost:8080"

/-- `endpoint.startsWith('http')`, expressed over the character list. -/
def startsWithHttp (endpoint : String) : Bool :=
  match endpoint.data with
  | 'h' :: 't' :: 't' :: 'p' :: _ => true
  | _ => false

/-- `endpoint.startsWith('http') ? endpoint : BASE_URL + endpoint`. -/
def requestUrl (endpoint : String) : String :=
  if startsWithHttp endpoint then endpoint else BASE_URL ++ endpoint

/-- The `RequestInit` options a caller passes to `request`. Only the
header map influences the executor; `method`/`body` are handed to `fetch`
verbatim and are not observable in the model. -/
structure RequestOptions where
  headers : List (String × String) := []

/-- `{'Content-Type': 'application/json', ...options.headers}`. -/
def baseHeaders (options : RequestOptions) : List (String × String) :=
  List.foldl (fun acc kv => setEntry acc kv.1 kv.2)
    [("Content-Type", "application/json")] options.headers

/-- Template-literal coercion of a possibly-undefined value to a string,
as in `` `Bearer ${this.accessToken}` ``. -/
def jsString : Option JsVal → String
  | none => "undefined"
  | some .null => "null"
  | some (.bool true) => "true"
  | some (.bool false) => "false"
  | some (.num n) => toString n
  | some (.str s) => s
  | some (.obj _) => "[object Object]"

/-- The header map sent by one attempt: the base headers, plus the
`Authorization` bearer header when `requiresAuth` holds and the access
token is truthy. -/
def buildHeaders (options : RequestOptions) (requiresAuth : Bool)
    (st : ClientState) : List (String × String) :=
  if requiresAuth && truthyOpt st.accessToken then
    setEntry (baseHeaders options) "Authorization"
      ("Bearer " ++ jsString st.accessToken)
  else baseHeaders options

/-- One HTTP attempt as issued on the wire: its URL and header map. -/
structure AttemptLog where
  url : String
  headers : List (String × String)

/-- `{status: 0, message: 'Network error. Please check your connection.'}`. -/
def networkErrorVal : JsVal :=
  .obj [("status", .num 0),
        ("message", .str "Network error. Please check your connection.")]

/-- `{status: 401, message: 'Session expired. Please login again.'}`. -/
def sessionExpiredVal : JsVal :=
  .obj [("status", .num 401),
        ("message", .str "Session expired. Please login again.")]

/-- The `TypeError` a rejected `fetch` delivers; all that matters below is
that it carries no `status` property. -/
def fetchFailureVal : JsVal := .obj [("name", .str "TypeError")]

/-- The `SyntaxError` thrown by `JSON.parse` on a malformed body; it
carries no `status` property. -/
def jsonErrorVal : JsVal := .obj [("name", .str "SyntaxError")]

/-- The `TypeError` thrown by property access on a `null` receiver, as
raised inside `setTokens` when a null body reaches it; it carries no
`status` property. -/
def nullAccessErrorVal : JsVal := .obj [("name", .str "TypeError")]

/-- The error thrown for a non-ok response: `response.json()` if it
parses, else `{status, message: statusText}`, then
`{...errorData, status: response.status}`. -/
def errorFromResponse (resp : HttpResponse) : JsVal :=
  match resp.parsed with
  | some errorData => spreadWithStatus errorData resp.status
  | none =>
    spreadWithStatus
      (.obj [("status", .num resp.status), ("message", .str resp.statusText)])
      resp.status

/-- Handling of a settled response outside the 401-retry branch: non-ok
throws `errorFromResponse`, an ok empty body returns `{} as T`, an ok
non-empty body returns its parse or throws the parse's `SyntaxError`. -/
def responseResult (resp : HttpResponse) : Except JsVal JsVal :=
  if resp.ok = false then .error (errorFromResponse resp)
  else if resp.bodyText = "" then .ok (.obj [])
  else
    match resp.parsed with
    | some v => .ok v
    | none => .error jsonErrorVal

/-- The final `catch` of `request`: an exception with a truthy `status`
property is rethrown unchanged, anything else becomes the status-0
network error. -/
def catchAll : Except JsVal JsVal → Except JsVal JsVal
  | .ok v => .ok v
  | .error e =>
    if truthyOpt (e.getField "status") then .error e else .error networkErrorVal

/-- Everything one call to `request` produces: the returned or thrown
value, the client state it leaves, the next unused wire index, the HTTP
attempts it issued itself (not counting the refresh exchange) and how
often it invoked `refreshAccessToken`. -/
structure ExecResult where
  result : Except JsVal JsVal
  state : ClientState
  next : Nat
  attempts : List AttemptLog
  refreshes : Nat

/-- `request` with the boolean `retryOnUnauthorized` flag modelled as a
retry budget: the flag's `true` is budget 1, and the recursive
`this.request(endpoint, options, requiresAuth, false)` call is budget 0.
A 401 on a `requiresAuth` call with budget left invokes the refresh
coordinator and either re-executes once or throws the session-expired
error; every path is wrapped in the final catch (`catchAll`). -/
def requestAux (endpoint : String) (options : RequestOptions)
    (requiresAuth : Bool) :
    Nat → ClientState → Wire → Nat → ExecResult
  | retries, st, wire, k =>
    let attempt : AttemptLog :=
      ⟨requestUrl endpoint, buildHeaders options requiresAuth st⟩
    let inner : ExecResult :=
      match wire.outcomes k with
      | .networkFailure => ⟨.error fetchFailureVal, st, k + 1, [attempt], 0⟩
      | .success resp =>
        if resp.status = 401 ∧ requiresAuth = true then
          match retries with
          | n + 1 =>
            match refreshAccessToken st wire (k + 1) with
            | (true, st1, k1) =>
              let r := requestAux endpoint options requiresAuth n st1 wire k1
              ⟨r.result, r.state, r.next, attempt :: r.attempts,
                r.refreshes + 1⟩
            | (false, st1, k1) =>
              ⟨.error sessionExpiredVal, st1, k1, [attempt], 1⟩
          | 0 => ⟨responseResult resp, st, k + 1, [attempt], 0⟩
        else ⟨responseResult resp, st, k + 1, [attempt], 0⟩
    ⟨catchAll inner.result, inner.state, inner.next, inner.attempts,
      inner.refreshes⟩

/-- `request(endpoint, options, requiresAuth, retryOnUnauthorized)`. -/
def request (endpoint : String) (options : RequestOptions)
    (requiresAuth retryOnUnauthorized : Bool) (st : ClientState)
    (wire : Wire) (k : Nat) : ExecResult :=
  requestAux endpoint options requiresAuth
    (if retryOnUnauthorized then 1 else 0) st wire k

/-- The login endpoint path (percent-encoding of the query parameters is
not modelled; it does not affect any stated property). -/
def loginEndpoint (email password : String) : String :=
  "/api/v1/auth/login?email=" ++ email ++ "&password=" ++ password

/-- `login(email, password)`: an unauthenticated POST; on success the
returned pair is stored via `setTokens`. A body delivered as `null`
makes `setTokens`' member access throw, and no catch is in scope here:
the raw `TypeError` escapes to the caller before any mutation. -/
def login (email password : String) (st : ClientState) (wire : Wire)
    (k : Nat) : Except JsVal JsVal × ClientState × Nat :=
  let r := request (loginEndpoint email password) {} false true st wire k
  match r.result with
  | .ok tokens =>
    if tokens.isNull then (.error nullAccessErrorVal, r.state, r.next)
    else (.ok tokens, setTokens tokens r.state, r.next)
  | .error e => (.error e, r.state, r.next)

/-- `register(data)`: an unauthenticated POST whose JSON body goes to
`fetch` verbatim; on success the returned pair is stored via
`setTokens`, with the same escaping `TypeError` on a `null` body as in
`login`. -/
def register (st : ClientState) (wire : Wire) (k : Nat) :
    Except JsVal JsVal × ClientState × Nat :=
  let r := request "/api/v1/auth/register" {} false true st wire k
  match r.result with
  | .ok tokens =>
    if tokens.isNull then (.error nullAccessErrorVal, r.state, r.next)
    else (.ok tokens, setTokens tokens r.state, r.next)
  | .error e => (.error e, r.state, r.next)

/-- How the single in-flight refresh exchange settles: an ok response
whose body parses to a non-null value (the token value handed to
`setTokens`), or any failure — transport error, non-2xx response,
unparseable body, or a body parsing to `null`, whose member access
throws inside the exchange's try so that such an exchange resolves
false with the tokens cleared, i.e. settles as `failure`. -/
inductive RefreshOutcome where
  | success (tokens : JsVal) : RefreshOutcome
  | failure : RefreshOutcome

/-- The boolean the shared refresh promise resolves with. -/
def RefreshOutcome.toBool : RefreshOutcome → Bool
  | .success _ => true
  | .failure => false

/-- Where one concurrent caller of `refreshAccessToken()` stands:
it has not yet run its synchronous entry section, it is suspended on the
shared `refreshPromise`, or that promise resolved and handed it `b`. -/
inductive CallerPhase where
  | ready : CallerPhase
  | waitingFlight : CallerPhase
  | returned (b : Bool) : CallerPhase
deriving DecidableEq

/-- Global state of N concurrent callers of the refresh coordinator:
the shared client state, whether `isRefreshing && refreshPromise` holds
(one exchange in flight), how many backend refresh calls were issued,
and each caller's phase. -/
structure SFState (N : Nat) where
  client : ClientState
  inFlight : Bool
  networkCalls : Nat
  callers : Fin N → CallerPhase

/-- Scheduler events. `start i`: caller i runs the synchronous entry of
`refreshAccessToken()` — the token guard, the in-flight check, and (for
the first caller) setting the flag, creating the shared promise and
issuing the fetch; this whole section contains no `await`, so under the
event loop it is one atomic step. `settle out`: the in-flight exchange's
continuation runs — storing or clearing tokens, resolving the shared
promise with `out.toBool` and clearing the flag in `finally` — and every
suspended caller resumes with that boolean (a resumed caller only returns
the value, so collapsing the resumptions into the settle step loses no
behaviour). -/
inductive SFStep (N : Nat) where
  | start (i : Fin N) : SFStep N
  | settle (out : RefreshOutcome) : SFStep N

/-- Whether an event can fire: a caller starts only once, and only an
in-flight exchange settles. -/
def sfEnabled {N : Nat} (s : SFState N) : SFStep N → Bool
  | .start i => decide (s.callers i = CallerPhase.ready)
  | .settle _ => s.inFlight

/-- Effect of one event, following the source line by line (see
`SFStep`). The falsy-token early return precedes the in-flight check,
exactly as in `refreshAccessToken`. -/
def sfStep {N : Nat} (s : SFState N) : SFStep N → SFState N
  | .start i =>
    if truthyOpt s.client.refreshToken = false then
      { s with callers := fun j => if j = i then .returned false else s.callers j }
    else if s.inFlight then
      { s with callers := fun j => if j = i then .waitingFlight else s.callers j }
    else
      { s with inFlight := true, networkCalls := s.networkCalls + 1,
               callers := fun j => if j = i then .waitingFlight else s.callers j }
  | .settle out =>
    { client :=
        match out with
        | .success tokens => setTokens tokens s.client
        | .failure => clearTokens s.client,
      inFlight := false,
      networkCalls := s.networkCalls,
      callers := fun j =>
        if s.callers j = CallerPhase.waitingFlight then .returned out.toBool
        else s.callers j }

/-- Run a schedule of events. -/
def sfRun {N : Nat} (s : SFState N) (trace : List (SFStep N)) : SFState N :=
  List.foldl sfStep s trace

/-- A schedule is valid when every event is enabled where it fires. -/
def sfValid {N : Nat} (s : SFState N) : List (SFStep N) → Bool
  | [] => true
  | stp :: rest => sfEnabled s stp && sfValid (sfStep s stp) rest

/-- N callers about to call `refreshAccessToken()` on a shared client:
no exchange in flight, none issued yet. -/
def sfInit (N : Nat) (client : ClientState) : SFState N :=
  ⟨client, false, 0, fun _ => .ready⟩

/-- The state with both fields nulled and storage removed. -/
def clearedState : ClientState := ⟨none, none, none⟩

/-- A client state the client itself can have produced: logged out, or
holding a persisted credential pair whose fields are mirrored in memory. -/
def wellFormed (st : ClientState) : Prop :=
  st = clearedState ∨
    ∃ v, isCredentialPair v = true ∧ st.accessToken = v.getField "accessToken" ∧
      st.refreshToken = v.getField "refreshToken" ∧ st.storage = some (.parsed v)

/-- A persisted record the invariant tolerates: absent, rejected by
`JSON.parse`, or a full credential pair. -/
def goodStorage (s : Option StoredRecord) : Prop :=
  s = none ∨ s = some .unparseable ∨
    ∃ v, s = some (.parsed v) ∧ isCredentialPair v = true

/-- The no-partial-credential invariant: the two in-memory credentials
are held (truthy) together or absent together, and the persisted record
is one the invariant tolerates. -/
def goodState (st : ClientState) : Prop :=
  truthyOpt st.accessToken = truthyOpt st.refreshToken ∧ goodStorage st.storage

section Lemmas

theorem getEntry_setEntry_self {α : Type} (l : List (String × α)) (key : String)
    (v : α) : getEntry (setEntry l key v) key = some v := by
  induction l with
  | nil => simp [setEntry, getEntry]
  | cons hd tl ih =>
    by_cases h : hd.1 = key
    · simp [setEntry, h, getEntry]
    · simp [setEntry, h, getEntry, ih]

theorem getEntry_setEntry_other {α : Type} (l : List (String × α))
    (key k2 : String) (v : α) (h : k2 ≠ key) :
    getEntry (setEntry l key v) k2 = getEntry l k2 := by
  have hne : ¬ key = k2 := fun hk => h hk.symm
  induction l with
  | nil => simp [setEntry, getEntry, hne]
  | cons hd tl ih =>
    by_cases hh : hd.1 = key
    · simp only [setEntry, hh, if_pos rfl, getEntry, if_neg hne]
    · simp only [setEntry, hh, if_false, getEntry, ih]

theorem getEntry_foldl_setEntry_absent {α : Type} (l : List (String × α))
    (key : String) (hab : ∀ p ∈ l, p.1 ≠ key) (acc : List (String × α)) :
    getEntry (List.foldl (fun acc kv => setEntry acc kv.1 kv.2) acc l) key =
      getEntry acc key := by
  induction l generalizing acc with
  | nil => rfl
  | cons hd tl ih =>
    have h1 : hd.1 ≠ key := hab hd (List.mem_cons_self hd tl)
    have h2 : ∀ p ∈ tl, p.1 ≠ key := fun p hp => hab p (List.mem_cons_of_mem hd hp)
    simp only [List.foldl_cons]
    rw [ih h2, getEntry_setEntry_other _ _ _ _ (Ne.symm h1)]

theorem catchAll_error_truthy (e : JsVal)
    (h : truthyOpt (e.getField "status") = true) :
    catchAll (.error e) = .error e := by
  simp [catchAll, h]

theorem catchAll_error_falsy (e : JsVal)
    (h : truthyOpt (e.getField "status") = false) :
    catchAll (.error e) = .error networkErrorVal := by
  simp [catchAll, h]

theorem networkErrorVal_status_falsy :
    truthyOpt (networkErrorVal.getField "status") = false := rfl

theorem catchAll_idem (x : Except JsVal JsVal) :
    catchAll (catchAll x) = catchAll x := by
  cases x with
  | ok v => rfl
  | error e =>
    by_cases h : truthyOpt (e.getField "status") = true
    · rw [catchAll_error_truthy e h, catchAll_error_truthy e h]
    · rw [catchAll_error_falsy e (Bool.not_eq_true _ ▸ h),
        catchAll_error_falsy _ networkErrorVal_status_falsy]

theorem catchAll_error_cases (x : Except JsVal JsVal) (e : JsVal)
    (h : catchAll x = .error e) :
    truthyOpt (e.getField "status") = true ∨ e = networkErrorVal := by
  cases x with
  | ok v => simp [catchAll] at h
  | error e0 =>
    by_cases ht : truthyOpt (e0.getField "status") = true
    · rw [catchAll_error_truthy e0 ht] at h
      cases h
      exact Or.inl ht
    · rw [catchAll_error_falsy e0 (Bool.not_eq_true _ ▸ ht)] at h
      cases h
      exact Or.inr rfl

theorem catchAll_error_status_zero (x : Except JsVal JsVal) (e : JsVal)
    (h : catchAll x = .error e) (hz : e.getField "status" = some (.num 0)) :
    e = networkErrorVal := by
  rcases catchAll_error_cases x e h with ht | hn
  · rw [hz] at ht
    simp [truthyOpt, JsVal.truthy] at ht
  · exact hn

theorem requestAux_result_shape (e : String) (o : RequestOptions) (a : Bool)
    (n : Nat) (st : ClientState) (wire : Wire) (k : Nat) :
    ∃ x, (requestAux e o a n st wire k).result = catchAll x := by
  rw [requestAux]
  exact ⟨_, rfl⟩

theorem catchAll_requestAux (e : String) (o : RequestOptions) (a : Bool)
    (n : Nat) (st : ClientState) (wire : Wire) (k : Nat) :
    catchAll (requestAux e o a n st wire k).result =
      (requestAux e o a n st wire k).result := by
  obtain ⟨x, hx⟩ := requestAux_result_shape e o a n st wire k
  rw [hx, catchAll_idem]

theorem requestAux_netfail (e : String) (o : RequestOptions) (a : Bool)
    (n : Nat) (st : ClientState) (wire : Wire) (k : Nat)
    (h : wire.outcomes k = .networkFailure) :
    requestAux e o a n st wire k =
      ⟨.error networkErrorVal, st, k + 1,
        [⟨requestUrl e, buildHeaders o a st⟩], 0⟩ := by
  rw [requestAux, h]
  rfl

theorem requestAux_success_no_retry (e : String) (o : RequestOptions)
    (a : Bool) (n : Nat) (st : ClientState) (wire : Wire) (k : Nat)
    (resp : HttpResponse) (hresp : wire.outcomes k = .success resp)
    (hcond : ¬(resp.status = 401 ∧ a = true) ∨ n = 0) :
    requestAux e o a n st wire k =
      ⟨catchAll (responseResult resp), st, k + 1,
        [⟨requestUrl e, buildHeaders o a st⟩], 0⟩ := by
  rw [requestAux, hresp]
  rcases hcond with hcond | hcond
  · simp only [if_neg hcond]
  · subst hcond
    by_cases h401 : resp.status = 401 ∧ a = true
    · simp only [if_pos h401]
    · simp only [if_neg h401]

theorem requestAux_retry_refresh_ok (e : String) (o : RequestOptions)
    (n : Nat) (st st1 : ClientState) (wire : Wire) (k k1 : Nat)
    (resp : HttpResponse) (hresp : wire.outcomes k = .success resp)
    (h401 : resp.status = 401)
    (hrf : refreshAccessToken st wire (k + 1) = (true, st1, k1)) :
    requestAux e o true (n + 1) st wire k =
      ⟨(requestAux e o true n st1 wire k1).result,
        (requestAux e o true n st1 wire k1).state,
        (requestAux e o true n st1 wire k1).next,
        ⟨requestUrl e, buildHeaders o true st⟩ ::
          (requestAux e o true n st1 wire k1).attempts,
        (requestAux e o true n st1 wire k1).refreshes + 1⟩ := by
  rw [requestAux, hresp]
  dsimp only
  rw [if_pos (show resp.status = 401 ∧ true = true from ⟨h401, rfl⟩)]
  rw [hrf]
  simp [catchAll_requestAux]

theorem requestAux_retry_refresh_fail (e : String) (o : RequestOptions)
    (n : Nat) (st st1 : ClientState) (wire : Wire) (k k1 : Nat)
    (resp : HttpResponse) (hresp : wire.outcomes k = .success resp)
    (h401 : resp.status = 401)
    (hrf : refreshAccessToken st wire (k + 1) = (false, st1, k1)) :
    requestAux e o true (n + 1) st wire k =
      ⟨.error sessionExpiredVal, st1, k1,
        [⟨requestUrl e, buildHeaders o true st⟩], 1⟩ := by
  rw [requestAux, hresp]
  dsimp only
  rw [if_pos (show resp.status = 401 ∧ true = true from ⟨h401, rfl⟩)]
  rw [hrf]
  rfl

theorem requestAux_attempts_le (e : String) (o : RequestOptions) (a : Bool) :
    ∀ (n : Nat) (st : ClientState) (wire : Wire) (k : Nat),
      (requestAux e o a n st wire k).attempts.length ≤ n + 1 := by
  intro n
  induction n with
  | zero =>
    intro st wire k
    cases h : wire.outcomes k with
    | networkFailure => rw [requestAux_netfail e o a 0 st wire k h]; simp
    | success resp =>
      rw [requestAux_success_no_retry e o a 0 st wire k resp h (Or.inr rfl)]
      simp
  | succ n ih =>
    intro st wire k
    cases h : wire.outcomes k with
    | networkFailure =>
      rw [requestAux_netfail e o a (n + 1) st wire k h]
      simp
    | success resp =>
      by_cases h401 : resp.status = 401 ∧ a = true
      · rcases h401 with ⟨h401, ha⟩
        subst ha
        rcases hrf : refreshAccessToken st wire (k + 1) with ⟨b, st1, k1⟩
        cases b with
        | true =>
          rw [requestAux_retry_refresh_ok e o n st st1 wire k k1 resp h h401 hrf]
          simpa using Nat.succ_le_succ (ih st1 wire k1)
        | false =>
          rw [requestAux_retry_refresh_fail e o n st st1 wire k k1 resp h h401 hrf]
          simp
      · rw [requestAux_success_no_retry e o a (n + 1) st wire k resp h (Or.inl h401)]
        simp

theorem sfRun_cons {N : Nat} (s : SFState N) (x : SFStep N)
    (l : List (SFStep N)) : sfRun s (x :: l) = sfRun (sfStep s x) l := rfl

theorem sfValid_cons {N : Nat} (s : SFState N) (x : SFStep N)
    (l : List (SFStep N)) :
    sfValid s (x :: l) = (sfEnabled s x && sfValid (sfStep s x) l) := rfl

theorem sfRun_append {N : Nat} (l1 l2 : List (SFStep N)) (s : SFState N) :
    sfRun s (l1 ++ l2) = sfRun (sfRun s l1) l2 := by
  induction l1 generalizing s with
  | nil => rfl
  | cons x l ih => simp only [List.cons_append, sfRun_cons, ih]

theorem sfValid_append {N : Nat} (l1 l2 : List (SFStep N)) (s : SFState N) :
    sfValid s (l1 ++ l2) = (sfValid s l1 && sfValid (sfRun s l1) l2) := by
  induction l1 generalizing s with
  | nil => simp [sfValid, sfRun]
  | cons x l1 ih =>
    simp only [List.cons_append, sfValid_cons, ih, sfRun_cons, Bool.and_assoc]

theorem sfStep_start_join {N : Nat} (s : SFState N) (i : Fin N)
    (htok : truthyOpt s.client.refreshToken = true) (hin : s.inFlight = true) :
    sfStep s (.start i) =
      { s with callers := fun j => if j = i then .waitingFlight else s.callers j } := by
  simp [sfStep, htok, hin]

theorem sfStep_start_leader {N : Nat} (s : SFState N) (i : Fin N)
    (htok : truthyOpt s.client.refreshToken = true) (hin : s.inFlight = false) :
    sfStep s (.start i) =
      { s with inFlight := true, networkCalls := s.networkCalls + 1,
               callers := fun j => if j = i then .waitingFlight else s.callers j } := by
  simp [sfStep, htok, hin]

theorem sfRun_starts {N : Nat} (order : List (Fin N)) :
    ∀ s : SFState N, s.inFlight = true →
      truthyOpt s.client.refreshToken = true →
      (∀ i ∈ order, s.callers i = .ready) → order.Nodup →
      sfValid s (order.map SFStep.start) = true ∧
      (sfRun s (order.map SFStep.start)).client = s.client ∧
      (sfRun s (order.map SFStep.start)).inFlight = true ∧
      (sfRun s (order.map SFStep.start)).networkCalls = s.networkCalls ∧
      (∀ i ∈ order,
        (sfRun s (order.map SFStep.start)).callers i = .waitingFlight) ∧
      (∀ i, i ∉ order →
        (sfRun s (order.map SFStep.start)).callers i = s.callers i) := by
  induction order with
  | nil =>
    intro s hin htok _ _
    exact ⟨rfl, rfl, hin, rfl, by simp, fun i _ => rfl⟩
  | cons j rest ih =>
    intro s hin htok hready hnd
    have hjready : s.callers j = .ready := hready j (List.mem_cons_self j rest)
    have hnd2 := List.nodup_cons.mp hnd
    have hstep := sfStep_start_join s j htok hin
    have hcallers1 : ∀ i, i ≠ j → (sfStep s (.start j)).callers i = s.callers i := by
      intro i hij
      rw [hstep]
      simp [hij]
    have hclient1 : (sfStep s (.start j)).client = s.client := by rw [hstep]
    have hin1 : (sfStep s (.start j)).inFlight = true := by rw [hstep]; exact hin
    have hnet1 : (sfStep s (.start j)).networkCalls = s.networkCalls := by rw [hstep]
    have hready1 : ∀ i ∈ rest, (sfStep s (.start j)).callers i = .ready := by
      intro i hi
      rw [hcallers1 i (fun hij => hnd2.1 (hij ▸ hi))]
      exact hready i (List.mem_cons_of_mem j hi)
    have htok1 : truthyOpt (sfStep s (.start j)).client.refreshToken = true := by
      rw [hclient1]; exact htok
    obtain ⟨hv, hc, hf, hn, hw, hu⟩ := ih (sfStep s (.start j)) hin1 htok1 hready1 hnd2.2
    have hwaitj : (sfStep s (.start j)).callers j = .waitingFlight := by
      rw [hstep]; simp
    refine ⟨?_, ?_, hf, ?_, ?_, ?_⟩
    · simp only [List.map_cons, sfValid, sfEnabled, hjready]
      simp [hv]
    · simpa [sfRun] using hc.trans hclient1
    · simpa [sfRun] using hn.trans hnet1
    · intro i hi
      rcases List.mem_cons.mp hi with hij | hirest
      · subst hij
        show (sfRun (sfStep s (.start i)) (rest.map SFStep.start)).callers i = _
        by_cases hmem : i ∈ rest
        · exact hw i hmem
        · rw [hu i hmem]
          exact hwaitj
      · exact hw i hirest
    · intro i hi
      have hij : i ≠ j := fun hsame => hi (hsame ▸ List.mem_cons_self j rest)
      have hrest : i ∉ rest := fun hr => hi (List.mem_cons_of_mem j hr)
      show (sfRun (sfStep s (.start j)) (rest.map SFStep.start)).callers i = _
      rw [hu i hrest, hcallers1 i hij]

theorem isCredentialPair_iff (v : JsVal) :
    isCredentialPair v = true ↔
      ∃ a b, v.getField "accessToken" = some (.str a) ∧ a ≠ "" ∧
        v.getField "refreshToken" = some (.str b) ∧ b ≠ "" := by
  constructor
  · intro h
    unfold isCredentialPair at h
    rcases hA : v.getField "accessToken" with _ | va
    · rw [hA] at h; simp at h
    · rcases hB : v.getField "refreshToken" with _ | vb
      · rw [hA, hB] at h; cases va <;> simp at h
      · rw [hA, hB] at h
        cases va <;> cases vb <;> simp at h
        case str.str a b => exact ⟨a, b, rfl, h.1, rfl, h.2⟩
  · rintro ⟨a, b, hA, ha, hB, hb⟩
    unfold isCredentialPair
    rw [hA, hB]
    simp [ha, hb]

theorem isCredentialPair_obj (v : JsVal) (hv : isCredentialPair v = true) :
    ∃ fields, v = .obj fields := by
  cases v with
  | obj fields => exact ⟨fields, rfl⟩
  | null => simp [isCredentialPair, JsVal.getField] at hv
  | bool b => simp [isCredentialPair, JsVal.getField] at hv
  | num n => simp [isCredentialPair, JsVal.getField] at hv
  | str s => simp [isCredentialPair, JsVal.getField] at hv

theorem requestAux_zero_parts (e : String) (o : RequestOptions) (a : Bool)
    (st : ClientState) (wire : Wire) (k : Nat) :
    (requestAux e o a 0 st wire k).state = st ∧
    (requestAux e o a 0 st wire k).next = k + 1 ∧
    (requestAux e o a 0 st wire k).attempts =
      [⟨requestUrl e, buildHeaders o a st⟩] ∧
    (requestAux e o a 0 st wire k).refreshes = 0 := by
  cases h : wire.outcomes k with
  | networkFailure =>
    rw [requestAux_netfail e o a 0 st wire k h]
    exact ⟨rfl, rfl, rfl, rfl⟩
  | success resp =>
    rw [requestAux_success_no_retry e o a 0 st wire k resp h (Or.inr rfl)]
    exact ⟨rfl, rfl, rfl, rfl⟩

theorem requestAux_noauth (e : String) (o : RequestOptions) (n : Nat)
    (st : ClientState) (wire : Wire) (k : Nat) :
    requestAux e o false n st wire k =
      ⟨catchAll (match wire.outcomes k with
          | .networkFailure => Except.error fetchFailureVal
          | .success resp => responseResult resp),
        st, k + 1, [⟨requestUrl e, baseHeaders o⟩], 0⟩ := by
  have hb : buildHeaders o false st = baseHeaders o := by simp [buildHeaders]
  cases h : wire.outcomes k with
  | networkFailure =>
    rw [requestAux_netfail e o false n st wire k h, hb]
    rfl
  | success resp =>
    rw [requestAux_success_no_retry e o false n st wire k resp h
      (Or.inl (by simp)), hb]

theorem getField_errorFromResponse_status (resp : HttpResponse) :
    (errorFromResponse resp).getField "status" = some (.num resp.status) := by
  unfold errorFromResponse
  cases hp : resp.parsed with
  | none => rfl
  | some v =>
    cases v with
    | obj fields =>
      show getEntry (setEntry fields "status" (.num resp.status)) "status" = _
      exact getEntry_setEntry_self fields "status" _
    | null => rfl
    | bool b => rfl
    | num n => rfl
    | str s => rfl

end Lemmas

/-- C1 (single-flight refresh): from a state holding a truthy refresh
credential, for any number N ≥ 1 of concurrent callers of
`refreshAccessToken()` that all enter (in any order) before the in-flight
exchange settles, the whole schedule is a valid interleaving, exactly one
backend refresh call is issued, and every caller receives the settling
outcome's boolean — callers arriving while the exchange is in flight are
handed the same pending outcome instead of starting a second call. -/
theorem refresh_single_flight {N : Nat} (client : ClientState) (hN : 0 < N)
    (htok : truthyOpt client.refreshToken = true)
    (order : List (Fin N)) (hnd : order.Nodup) (hall : ∀ i, i ∈ order)
    (out : RefreshOutcome) :
    sfValid (sfInit N client)
        (order.map SFStep.start ++ [SFStep.settle out]) = true ∧
    (sfRun (sfInit N client)
        (order.map SFStep.start ++ [SFStep.settle out])).networkCalls = 1 ∧
    ∀ i, (sfRun (sfInit N client)
        (order.map SFStep.start ++ [SFStep.settle out])).callers i =
      CallerPhase.returned out.toBool := by
  cases order with
  | nil => exact absurd (hall ⟨0, hN⟩) (by simp)
  | cons j rest =>
    have hnd2 := List.nodup_cons.mp hnd
    have hstep := sfStep_start_leader (sfInit N client) j htok rfl
    have hin1 : (sfStep (sfInit N client) (.start j)).inFlight = true := by
      rw [hstep]
    have htok1 :
        truthyOpt (sfStep (sfInit N client) (.start j)).client.refreshToken
          = true := by
      rw [hstep]; exact htok
    have hnet1 : (sfStep (sfInit N client) (.start j)).networkCalls = 1 := by
      rw [hstep]
      rfl
    have hcallers1 : ∀ i : Fin N,
        (sfStep (sfInit N client) (.start j)).callers i =
          if i = j then .waitingFlight else .ready := by
      intro i
      rw [hstep]
      rfl
    have hready1 : ∀ i ∈ rest,
        (sfStep (sfInit N client) (.start j)).callers i = .ready := by
      intro i hi
      have hij : ¬ i = j := fun h => hnd2.1 (h ▸ hi)
      rw [hcallers1 i, if_neg hij]
    obtain ⟨hv, _, hf, hn, hw, hu⟩ :=
      sfRun_starts rest (sfStep (sfInit N client) (.start j)) hin1 htok1
        hready1 hnd2.2
    have hwaitAll : ∀ i,
        (sfRun (sfStep (sfInit N client) (.start j))
          (rest.map SFStep.start)).callers i = .waitingFlight := by
      intro i
      rcases List.mem_cons.mp (hall i) with hij | hirest
      · subst hij
        by_cases hmem : i ∈ rest
        · exact hw i hmem
        · rw [hu i hmem, hcallers1 i, if_pos rfl]
      · exact hw i hirest
    have hrun : sfRun (sfInit N client)
        ((j :: rest).map SFStep.start ++ [SFStep.settle out]) =
        sfStep (sfRun (sfStep (sfInit N client) (.start j))
          (rest.map SFStep.start)) (.settle out) := by
      rw [List.map_cons, List.cons_append, sfRun_cons, sfRun_append]
      rfl
    refine ⟨?_, ?_, ?_⟩
    · rw [List.map_cons, List.cons_append, sfValid_cons, sfValid_append]
      have henj : sfEnabled (sfInit N client) (.start j) = true := by
        simp [sfEnabled, sfInit]
      rw [henj, hv]
      simp [sfValid, sfEnabled, hf]
    · rw [hrun]
      show (sfRun (sfStep (sfInit N client) (.start j))
        (rest.map SFStep.start)).networkCalls = 1
      rw [hn, hnet1]
    · intro i
      rw [hrun]
      show (if _ = CallerPhase.waitingFlight then
        CallerPhase.returned out.toBool else _) = _
      rw [hwaitAll i, if_pos rfl]

/-- Witness for C1: two concurrent callers, a failing exchange — the
schedule is valid, one network call is issued, both callers observe
`false`. -/
theorem refresh_single_flight_witness :
    sfValid (sfInit 2 ⟨some (.str "a1"), some (.str "r1"),
        some (.parsed (pairVal "a1" "r1"))⟩)
      ([(0 : Fin 2), 1].map SFStep.start ++ [SFStep.settle .failure]) = true ∧
    (sfRun (sfInit 2 ⟨some (.str "a1"), some (.str "r1"),
        some (.parsed (pairVal "a1" "r1"))⟩)
      ([(0 : Fin 2), 1].map SFStep.start ++
        [SFStep.settle .failure])).networkCalls = 1 ∧
    ∀ i, (sfRun (sfInit 2 ⟨some (.str "a1"), some (.str "r1"),
        some (.parsed (pairVal "a1" "r1"))⟩)
      ([(0 : Fin 2), 1].map SFStep.start ++
        [SFStep.settle .failure])).callers i =
      CallerPhase.returned RefreshOutcome.failure.toBool :=
  refresh_single_flight
    ⟨some (.str "a1"), some (.str "r1"), some (.parsed (pairVal "a1" "r1"))⟩
    (by decide) (by decide) [0, 1] (by decide) (by decide)
    RefreshOutcome.failure

/-- C2 (retry once on 401): a `requiresAuth`, retry-enabled call whose
first fetch yields a 401 invokes the refresh coordinator; if refresh
reports true the same call is re-executed exactly once with the retry
flag false (so the refresh is invoked once and the logical call issues
exactly two HTTP attempts — and in general never more than two); if
refresh reports false the call fails with
`{status: 401, message: 'Session expired. Please login again.'}`. -/
theorem request_retry_once_on_401 (e : String) (o : RequestOptions)
    (st : ClientState) (wire : Wire) (k : Nat) (resp : HttpResponse)
    (hresp : wire.outcomes k = .success resp) (h401 : resp.status = 401) :
    ((refreshAccessToken st wire (k + 1)).1 = true →
      request e o true true st wire k =
        ⟨(request e o true false (refreshAccessToken st wire (k + 1)).2.1 wire
            (refreshAccessToken st wire (k + 1)).2.2).result,
          (request e o true false (refreshAccessToken st wire (k + 1)).2.1 wire
            (refreshAccessToken st wire (k + 1)).2.2).state,
          (request e o true false (refreshAccessToken st wire (k + 1)).2.1 wire
            (refreshAccessToken st wire (k + 1)).2.2).next,
          ⟨requestUrl e, buildHeaders o true st⟩ ::
            (request e o true false (refreshAccessToken st wire (k + 1)).2.1
              wire (refreshAccessToken st wire (k + 1)).2.2).attempts,
          1⟩ ∧
      (request e o true true st wire k).attempts.length = 2) ∧
    ((refreshAccessToken st wire (k + 1)).1 = false →
      request e o true true st wire k =
        ⟨.error sessionExpiredVal, (refreshAccessToken st wire (k + 1)).2.1,
          (refreshAccessToken st wire (k + 1)).2.2,
          [⟨requestUrl e, buildHeaders o true st⟩], 1⟩) ∧
    (∀ (a r : Bool) (st1 : ClientState) (k1 : Nat),
      (request e o a r st1 wire k1).attempts.length ≤ 2) := by
  refine ⟨?_, ?_, ?_⟩
  · rcases hrf : refreshAccessToken st wire (k + 1) with ⟨b, st1, k1⟩
    intro hok
    cases b with
    | false => exact absurd hok (by simp)
    | true =>
      have key := requestAux_retry_refresh_ok e o 0 st st1 wire k k1 resp
        hresp h401 hrf
      have hz := (requestAux_zero_parts e o true st1 wire k1).2.2.2
      constructor
      · show requestAux e o true (0 + 1) st wire k =
          ⟨(requestAux e o true 0 st1 wire k1).result,
            (requestAux e o true 0 st1 wire k1).state,
            (requestAux e o true 0 st1 wire k1).next,
            ⟨requestUrl e, buildHeaders o true st⟩ ::
              (requestAux e o true 0 st1 wire k1).attempts, 1⟩
        rw [key, hz]
      · show (requestAux e o true (0 + 1) st wire k).attempts.length = 2
        rw [key]
        have ha := (requestAux_zero_parts e o true st1 wire k1).2.2.1
        rw [ha]
        rfl
  · rcases hrf : refreshAccessToken st wire (k + 1) with ⟨b, st1, k1⟩
    intro hfail
    cases b with
    | true => exact absurd hfail (by simp)
    | false =>
      have key := requestAux_retry_refresh_fail e o 0 st st1 wire k k1 resp
        hresp h401 hrf
      show requestAux e o true (0 + 1) st wire k =
        ⟨.error sessionExpiredVal, st1, k1,
          [⟨requestUrl e, buildHeaders o true st⟩], 1⟩
      rw [key]
  · intro a r st1 k1
    have h := requestAux_attempts_le e o a (if r then 1 else 0) st1 wire k1
    have h2 : (if r then 1 else 0) + 1 ≤ 2 := by cases r <;> simp
    exact le_trans h h2

/-- Witness for C2: with a held pair, a wire answering 401, then a fresh
pair on refresh, then the intended 200, a logical call issues at most two
attempts. -/
theorem request_retry_once_on_401_witness :
    (request "/api/v1/users/me" ⟨[]⟩ true true
      ⟨some (.str "a1"), some (.str "r1"), some (.parsed (pairVal "a1" "r1"))⟩
      ⟨fun n => if n = 0 then .success ⟨401, "Unauthorized", "", none⟩
        else if n = 1 then .success ⟨200, "OK", "x", some (pairVal "a2" "r2")⟩
        else .success ⟨200, "OK", "x", some (.obj [("id", .str "u1")])⟩⟩
      0).attempts.length ≤ 2 :=
  (request_retry_once_on_401 "/api/v1/users/me" ⟨[]⟩
    ⟨some (.str "a1"), some (.str "r1"), some (.parsed (pairVal "a1" "r1"))⟩
    ⟨fun n => if n = 0 then .success ⟨401, "Unauthorized", "", none⟩
      else if n = 1 then .success ⟨200, "OK", "x", some (pairVal "a2" "r2")⟩
      else .success ⟨200, "OK", "x", some (.obj [("id", .str "u1")])⟩⟩
    0 ⟨401, "Unauthorized", "", none⟩ rfl rfl).2.2 true true
    ⟨some (.str "a1"), some (.str "r1"), some (.parsed (pairVal "a1" "r1"))⟩ 0

/-- C3 (refresh contract): `refreshAccessToken` reports true exactly when
the exchange obtained an ok, parseable body — in which case (the backend
answering refreshes with credential pairs) the new pair is held in memory
and persisted; whenever it reports false the stored credentials are
cleared, including the no-refresh-credential case, where it returns false
at once, performs no network call and leaves the (already cleared) state
untouched. -/
theorem refresh_contract (st : ClientState) (wire : Wire) (k : Nat)
    (hwf : wellFormed st)
    (hpair : ∀ resp tokens, wire.outcomes k = .success resp →
      resp.ok = true → resp.parsed = some tokens →
      isCredentialPair tokens = true) :
    ((refreshAccessToken st wire k).1 = true ↔
      (truthyOpt st.refreshToken = true ∧ ∃ resp tokens,
        wire.outcomes k = .success resp ∧ resp.ok = true ∧
        resp.parsed = some tokens)) ∧
    ((refreshAccessToken st wire k).1 = true →
      ∃ a b, (refreshAccessToken st wire k).2.1.accessToken =
          some (.str a) ∧ a ≠ "" ∧
        (refreshAccessToken st wire k).2.1.refreshToken =
          some (.str b) ∧ b ≠ "" ∧
        ∃ v, (refreshAccessToken st wire k).2.1.storage =
            some (.parsed v) ∧
          v.getField "accessToken" = some (.str a) ∧
          v.getField "refreshToken" = some (.str b)) ∧
    ((refreshAccessToken st wire k).1 = false →
      (refreshAccessToken st wire k).2.1 = clearedState) ∧
    (truthyOpt st.refreshToken = false →
      refreshAccessToken st wire k = (false, st, k) ∧ st = clearedState) := by
  by_cases htok : truthyOpt st.refreshToken = false
  · have hcleared : st = clearedState := by
      rcases hwf with h | ⟨v, hv, ha, hr, hs⟩
      · exact h
      · obtain ⟨a, b, hA, hane, hB, hbne⟩ := (isCredentialPair_iff v).mp hv
        rw [hB] at hr
        rw [hr] at htok
        simp [truthyOpt, JsVal.truthy, hbne] at htok
    have heq : refreshAccessToken st wire k = (false, st, k) := by
      rw [refreshAccessToken, if_pos htok]
    refine ⟨?_, ?_, ?_, fun _ => ⟨heq, hcleared⟩⟩
    · rw [heq]
      simp [htok]
    · rw [heq]
      simp
    · rw [heq]
      intro
      exact hcleared
  · rw [Bool.not_eq_false] at htok
    cases hout : wire.outcomes k with
    | networkFailure =>
      have hres : refreshAccessToken st wire k =
          (false, clearTokens st, k + 1) := by
        simp [refreshAccessToken, htok, hout]
      rw [hres]
      refine ⟨?_, fun h => absurd h (by simp), fun _ => rfl,
        fun hcontra => by rw [htok] at hcontra; cases hcontra⟩
      constructor
      · intro h
        exact absurd h (by simp)
      · rintro ⟨-, resp, tokens, hr, -, -⟩
        cases hr
    | success resp =>
      by_cases hok : resp.ok = false
      · have hres : refreshAccessToken st wire k =
            (false, clearTokens st, k + 1) := by
          simp [refreshAccessToken, htok, hout, hok]
        rw [hres]
        refine ⟨?_, fun h => absurd h (by simp), fun _ => rfl,
          fun hcontra => by rw [htok] at hcontra; cases hcontra⟩
        constructor
        · intro h
          exact absurd h (by simp)
        · rintro ⟨-, resp2, tokens, hr, hok2, -⟩
          cases hr
          rw [hok2] at hok
          cases hok
      · rw [Bool.not_eq_false] at hok
        cases hp : resp.parsed with
        | none =>
          have hres : refreshAccessToken st wire k =
              (false, clearTokens st, k + 1) := by
            simp [refreshAccessToken, htok, hout, hok, hp]
          rw [hres]
          refine ⟨?_, fun h => absurd h (by simp), fun _ => rfl,
            fun hcontra => by rw [htok] at hcontra; cases hcontra⟩
          constructor
          · intro h
            exact absurd h (by simp)
          · rintro ⟨-, resp2, tokens, hr, -, hp2⟩
            cases hr
            rw [hp] at hp2
            cases hp2
        | some tokens =>
          have hpairt := hpair resp tokens hout hok hp
          obtain ⟨fields, rfl⟩ := isCredentialPair_obj tokens hpairt
          have hres : refreshAccessToken st wire k =
              (true, setTokens (.obj fields) st, k + 1) := by
            simp [refreshAccessToken, htok, hout, hok, hp, JsVal.isNull]
          obtain ⟨a, b, hA, hane, hB, hbne⟩ :=
            (isCredentialPair_iff (.obj fields)).mp hpairt
          rw [hres]
          refine ⟨⟨fun _ => ⟨htok, resp, .obj fields, rfl, hok, hp⟩,
            fun _ => rfl⟩, ?_, fun h => absurd h (by simp),
            fun hcontra => by rw [htok] at hcontra; cases hcontra⟩
          intro
          exact ⟨a, b, hA, hane, hB, hbne, .obj fields, rfl, hA, hB⟩

/-- Witness for C3: from a well-formed state holding a pair, a refresh
whose exchange answers 200 with a fresh pair reports true and leaves the
new pair held and persisted. -/
theorem refresh_contract_witness :
    ∃ a b, (refreshAccessToken
        ⟨some (.str "a1"), some (.str "r1"),
          some (.parsed (pairVal "a1" "r1"))⟩
        ⟨fun _ => .success ⟨200, "OK", "x", some (pairVal "a2" "r2")⟩⟩
        0).2.1.accessToken = some (.str a) ∧ a ≠ "" ∧
      (refreshAccessToken
        ⟨some (.str "a1"), some (.str "r1"),
          some (.parsed (pairVal "a1" "r1"))⟩
        ⟨fun _ => .success ⟨200, "OK", "x", some (pairVal "a2" "r2")⟩⟩
        0).2.1.refreshToken = some (.str b) ∧ b ≠ "" ∧
      ∃ v, (refreshAccessToken
          ⟨some (.str "a1"), some (.str "r1"),
            some (.parsed (pairVal "a1" "r1"))⟩
          ⟨fun _ => .success ⟨200, "OK", "x", some (pairVal "a2" "r2")⟩⟩
          0).2.1.storage = some (.parsed v) ∧
        v.getField "accessToken" = some (.str a) ∧
        v.getField "refreshToken" = some (.str b) :=
  (refresh_contract
    ⟨some (.str "a1"), some (.str "r1"), some (.parsed (pairVal "a1" "r1"))⟩
    ⟨fun _ => .success ⟨200, "OK", "x", some (pairVal "a2" "r2")⟩⟩ 0
    (Or.inr ⟨pairVal "a1" "r1", rfl, rfl, rfl, rfl⟩)
    (by
      intro resp tokens h1 h2 h3
      have h1x : FetchOutcome.success ⟨200, "OK", "x",
          some (pairVal "a2" "r2")⟩ = .success resp := h1
      cases h1x
      have h3x : some (pairVal "a2" "r2") = some tokens := h3
      cases h3x
      rfl)).2.1 rfl

theorem goodState_cleared : goodState clearedState := ⟨rfl, Or.inl rfl⟩

theorem clearTokens_good (st : ClientState) : goodState (clearTokens st) :=
  goodState_cleared

theorem setTokens_good (tokens : JsVal) (st : ClientState)
    (hv : isCredentialPair tokens = true) : goodState (setTokens tokens st) := by
  obtain ⟨a, b, hA, hane, hB, hbne⟩ := (isCredentialPair_iff tokens).mp hv
  constructor
  · show truthyOpt (tokens.getField "accessToken") =
      truthyOpt (tokens.getField "refreshToken")
    rw [hA, hB]
    have h1 : (a != "") = true := by simp [hane]
    have h2 : (b != "") = true := by simp [hbne]
    simp [truthyOpt, JsVal.truthy, h1, h2]
  · exact Or.inr (Or.inr ⟨tokens, rfl, hv⟩)

theorem loadTokens_good (st : ClientState) (h : goodState st) :
    goodState (loadTokens st) := by
  rcases h with ⟨hmem, hs⟩
  rcases hs with hnone | hup | ⟨v, hv, hpair⟩
  · have : loadTokens st = st := by simp [loadTokens, hnone]
    rw [this]
    exact ⟨hmem, Or.inl hnone⟩
  · have : loadTokens st = clearTokens st := by simp [loadTokens, hup]
    rw [this]
    exact clearTokens_good st
  · obtain ⟨fields, rfl⟩ := isCredentialPair_obj v hpair
    have hload : loadTokens st =
        { st with
            accessToken := (JsVal.obj fields).getField "accessToken",
            refreshToken := (JsVal.obj fields).getField "refreshToken" } := by
      simp [loadTokens, hv, JsVal.isNull]
    rw [hload]
    obtain ⟨a, b, hA, hane, hB, hbne⟩ :=
      (isCredentialPair_iff (.obj fields)).mp hpair
    constructor
    · show truthyOpt ((JsVal.obj fields).getField "accessToken") =
        truthyOpt ((JsVal.obj fields).getField "refreshToken")
      rw [hA, hB]
      have h1 : (a != "") = true := by simp [hane]
      have h2 : (b != "") = true := by simp [hbne]
      simp [truthyOpt, JsVal.truthy, h1, h2]
    · exact Or.inr (Or.inr ⟨.obj fields, hv, hpair⟩)

theorem constructClient_good (s0 : Option StoredRecord) (h : goodStorage s0) :
    goodState (constructClient s0) :=
  loadTokens_good ⟨none, none, s0⟩ ⟨rfl, h⟩

theorem refresh_good (st : ClientState) (wire : Wire) (k : Nat)
    (h : goodState st)
    (hpair : ∀ resp tokens, wire.outcomes k = .success resp →
      resp.ok = true → resp.parsed = some tokens →
      isCredentialPair tokens = true) :
    goodState (refreshAccessToken st wire k).2.1 := by
  by_cases htok : truthyOpt st.refreshToken = false
  · have heq : refreshAccessToken st wire k = (false, st, k) := by
      rw [refreshAccessToken, if_pos htok]
    rw [heq]
    exact h
  · rw [Bool.not_eq_false] at htok
    cases hout : wire.outcomes k with
    | networkFailure =>
      have heq : refreshAccessToken st wire k =
          (false, clearTokens st, k + 1) := by
        simp [refreshAccessToken, htok, hout]
      rw [heq]
      exact clearTokens_good st
    | success resp =>
      by_cases hok : resp.ok = false
      · have heq : refreshAccessToken st wire k =
            (false, clearTokens st, k + 1) := by
          simp [refreshAccessToken, htok, hout, hok]
        rw [heq]
        exact clearTokens_good st
      · rw [Bool.not_eq_false] at hok
        cases hp : resp.parsed with
        | none =>
          have heq : refreshAccessToken st wire k =
              (false, clearTokens st, k + 1) := by
            simp [refreshAccessToken, htok, hout, hok, hp]
          rw [heq]
          exact clearTokens_good st
        | some tokens =>
          have hv := hpair resp tokens hout hok hp
          obtain ⟨fields, rfl⟩ := isCredentialPair_obj tokens hv
          have heq : refreshAccessToken st wire k =
              (true, setTokens (.obj fields) st, k + 1) := by
            simp [refreshAccessToken, htok, hout, hok, hp, JsVal.isNull]
          rw [heq]
          exact setTokens_good (.obj fields) st hv

theorem request_state_good (e : String) (o : RequestOptions) (a r : Bool)
    (st : ClientState) (wire : Wire) (k : Nat) (h : goodState st)
    (hpair : ∀ resp tokens, wire.outcomes (k + 1) = .success resp →
      resp.ok = true → resp.parsed = some tokens →
      isCredentialPair tokens = true) :
    goodState (request e o a r st wire k).state := by
  cases r with
  | false =>
    show goodState (requestAux e o a 0 st wire k).state
    rw [(requestAux_zero_parts e o a st wire k).1]
    exact h
  | true =>
    show goodState (requestAux e o a 1 st wire k).state
    cases hout : wire.outcomes k with
    | networkFailure =>
      rw [requestAux_netfail e o a 1 st wire k hout]
      exact h
    | success resp =>
      by_cases hc : resp.status = 401 ∧ a = true
      · obtain ⟨h401, ha⟩ := hc
        subst ha
        rcases hrf : refreshAccessToken st wire (k + 1) with ⟨b, st1, k1⟩
        have hst1 : goodState st1 := by
          have hg := refresh_good st wire (k + 1) h hpair
          rw [hrf] at hg
          exact hg
        cases b with
        | true =>
          show goodState (requestAux e o true (0 + 1) st wire k).state
          rw [requestAux_retry_refresh_ok e o 0 st st1 wire k k1 resp hout
            h401 hrf]
          show goodState (requestAux e o true 0 st1 wire k1).state
          rw [(requestAux_zero_parts e o true st1 wire k1).1]
          exact hst1
        | false =>
          show goodState (requestAux e o true (0 + 1) st wire k).state
          rw [requestAux_retry_refresh_fail e o 0 st st1 wire k k1 resp hout
            h401 hrf]
          exact hst1
      · rw [requestAux_success_no_retry e o a 1 st wire k resp hout
          (Or.inl hc)]
        exact h

theorem request_noauth_state (e : String) (o : RequestOptions) (r : Bool)
    (st : ClientState) (wire : Wire) (k : Nat) :
    (request e o false r st wire k).state = st := by
  show (requestAux e o false (if r then 1 else 0) st wire k).state = st
  rw [requestAux_noauth e o (if r then 1 else 0) st wire k]

theorem login_state_good (email pw : String) (st : ClientState) (wire : Wire)
    (k : Nat) (h : goodState st)
    (hok : ∀ tokens, (login email pw st wire k).1 = .ok tokens →
      isCredentialPair tokens = true) :
    goodState (login email pw st wire k).2.1 := by
  cases hres : (request (loginEndpoint email pw) {} false true st wire k).result
    with
  | ok tokens =>
    by_cases hn : tokens.isNull = true
    · have h2 : (login email pw st wire k).2.1 =
          (request (loginEndpoint email pw) {} false true st wire k).state := by
        simp [login, hres, hn]
      rw [h2, request_noauth_state]
      exact h
    · rw [Bool.not_eq_true] at hn
      have h1 : (login email pw st wire k).1 = .ok tokens := by
        simp [login, hres, hn]
      have h2 : (login email pw st wire k).2.1 =
          setTokens tokens
            (request (loginEndpoint email pw) {} false true st wire
              k).state := by
        simp [login, hres, hn]
      rw [h2]
      exact setTokens_good tokens _ (hok tokens h1)
  | error er =>
    have h2 : (login email pw st wire k).2.1 =
        (request (loginEndpoint email pw) {} false true st wire k).state := by
      simp [login, hres]
    rw [h2, request_noauth_state]
    exact h

theorem register_state_good (st : ClientState) (wire : Wire) (k : Nat)
    (h : goodState st)
    (hok : ∀ tokens, (register st wire k).1 = .ok tokens →
      isCredentialPair tokens = true) :
    goodState (register st wire k).2.1 := by
  cases hres : (request "/api/v1/auth/register" {} false true st wire k).result
    with
  | ok tokens =>
    by_cases hn : tokens.isNull = true
    · have h2 : (register st wire k).2.1 =
          (request "/api/v1/auth/register" {} false true st wire k).state := by
        simp [register, hres, hn]
      rw [h2, request_noauth_state]
      exact h
    · rw [Bool.not_eq_true] at hn
      have h1 : (register st wire k).1 = .ok tokens := by
        simp [register, hres, hn]
      have h2 : (register st wire k).2.1 =
          setTokens tokens
            (request "/api/v1/auth/register" {} false true st wire k).state := by
        simp [register, hres, hn]
      rw [h2]
      exact setTokens_good tokens _ (hok tokens h1)
  | error er =>
    have h2 : (register st wire k).2.1 =
        (request "/api/v1/auth/register" {} false true st wire k).state := by
      simp [register, hres]
    rw [h2, request_noauth_state]
    exact h

/-- Counterexample to C4 as stated: construction is a reachable state, yet
constructing the client over a persisted record that parses but is not a
full pair — here `{"accessToken": "a"}` — loads a held access credential
with no refresh credential: a partial credential state. -/
theorem partial_credentials_from_storage_cex :
    truthyOpt (constructClient (some (.parsed
      (.obj [("accessToken", .str "a")])))).accessToken = true ∧
    truthyOpt (constructClient (some (.parsed
      (.obj [("accessToken", .str "a")])))).refreshToken = false :=
  ⟨rfl, rfl⟩

/-- C4 as amended: provided the persisted record a client is constructed
over is absent, unparseable, or a full credential pair (as the client
itself always persists), the no-partial-credential invariant — both
credentials held (truthy) or neither, with tolerable storage — holds
after construction and is preserved by every operation: `setTokens` with
a pair, `clearTokens`, `loadTokens`, `logout`, `refreshAccessToken` and
`request` whenever the refresh exchange's ok bodies are credential pairs,
and `login`/`register` whenever their delivered bodies are pairs. -/
theorem credential_pair_invariant :
    (∀ st : ClientState, goodState st →
      truthyOpt st.accessToken = truthyOpt st.refreshToken) ∧
    (∀ s0, goodStorage s0 → goodState (constructClient s0)) ∧
    (∀ (st : ClientState) tokens, isCredentialPair tokens = true →
      goodState (setTokens tokens st)) ∧
    (∀ st : ClientState, goodState (clearTokens st)) ∧
    (∀ st : ClientState, goodState st → goodState (loadTokens st)) ∧
    (∀ st : ClientState, goodState st → goodState (logout st)) ∧
    (∀ (st : ClientState) (wire : Wire) (k : Nat), goodState st →
      (∀ resp tokens, wire.outcomes k = .success resp → resp.ok = true →
        resp.parsed = some tokens → isCredentialPair tokens = true) →
      goodState (refreshAccessToken st wire k).2.1) ∧
    (∀ (e : String) (o : RequestOptions) (a r : Bool) (st : ClientState)
      (wire : Wire) (k : Nat), goodState st →
      (∀ resp tokens, wire.outcomes (k + 1) = .success resp →
        resp.ok = true → resp.parsed = some tokens →
        isCredentialPair tokens = true) →
      goodState (request e o a r st wire k).state) ∧
    (∀ (email pw : String) (st : ClientState) (wire : Wire) (k : Nat),
      goodState st →
      (∀ tokens, (login email pw st wire k).1 = .ok tokens →
        isCredentialPair tokens = true) →
      goodState (login email pw st wire k).2.1) ∧
    (∀ (st : ClientState) (wire : Wire) (k : Nat), goodState st →
      (∀ tokens, (register st wire k).1 = .ok tokens →
        isCredentialPair tokens = true) →
      goodState (register st wire k).2.1) :=
  ⟨fun _ h => h.1, constructClient_good,
    fun st tokens hv => setTokens_good tokens st hv, clearTokens_good,
    loadTokens_good, fun st _ => clearTokens_good st,
    refresh_good, request_state_good, login_state_good, register_state_good⟩

/-- Witness for the amended C4: a client constructed over empty storage
satisfies the invariant. -/
theorem credential_pair_invariant_witness :
    goodState (constructClient none) :=
  credential_pair_invariant.2.1 none (Or.inl rfl)

/-- Counterexample to C5 as stated: a 200 response with the non-empty
unparseable body "not json" does not surface as a generic runtime
failure — the parse exception is caught by the executor's final catch and
IS normalized into a NormalizedError, namely the status-0 network error. -/
theorem parse_failure_is_normalized_cex :
    (request "/api/v1/users/me" ⟨[]⟩ true true
      ⟨some (.str "a1"), some (.str "r1"), some (.parsed (pairVal "a1" "r1"))⟩
      ⟨fun _ => .success ⟨200, "OK", "not json", none⟩⟩ 0).result =
      .error networkErrorVal := rfl

/-- C5 as amended: for every 2xx response whose non-empty body fails to
parse, the parse exception has no separate handler — it reaches the
executor's final catch which, the `SyntaxError` carrying no `status`
field, converts it into NormalizedError
{status: 0, message: 'Network error. Please check your connection.'},
leaving the client state unchanged. -/
theorem parse_failure_normalized (e : String) (o : RequestOptions)
    (a r : Bool) (st : ClientState) (wire : Wire) (k : Nat)
    (resp : HttpResponse) (hresp : wire.outcomes k = .success resp)
    (hok : resp.ok = true) (hne : resp.bodyText ≠ "")
    (hparse : resp.parsed = none) :
    (request e o a r st wire k).result = .error networkErrorVal ∧
    (request e o a r st wire k).state = st := by
  have h401 : ¬(resp.status = 401 ∧ a = true) := by
    rintro ⟨h4, -⟩
    unfold HttpResponse.ok at hok
    rw [h4] at hok
    exact absurd hok (by decide)
  have key := requestAux_success_no_retry e o a (if r then 1 else 0) st wire k
    resp hresp (Or.inl h401)
  have hrr : responseResult resp = .error jsonErrorVal := by
    simp [responseResult, hok, hne, hparse]
  constructor
  · show (requestAux e o a (if r then 1 else 0) st wire k).result = _
    rw [key]
    show catchAll (responseResult resp) = _
    rw [hrr]
    rfl
  · show (requestAux e o a (if r then 1 else 0) st wire k).state = st
    rw [key]

/-- Witness for the amended C5: a 204 with unparseable body "x" yields
the status-0 network error and leaves a cleared state cleared. -/
theorem parse_failure_normalized_witness :
    (request "/api/v1/trips" ⟨[]⟩ true true clearedState
      ⟨fun _ => .success ⟨204, "No Content", "x", none⟩⟩ 0).result =
      .error networkErrorVal ∧
    (request "/api/v1/trips" ⟨[]⟩ true true clearedState
      ⟨fun _ => .success ⟨204, "No Content", "x", none⟩⟩ 0).state =
      clearedState :=
  parse_failure_normalized "/api/v1/trips" ⟨[]⟩ true true clearedState
    ⟨fun _ => .success ⟨204, "No Content", "x", none⟩⟩ 0
    ⟨204, "No Content", "x", none⟩ rfl rfl (by decide) rfl

/-- Counterexample to C6's "only for transport failures" direction: an
execution whose single consumed wire outcome is a settled 200 response —
no transport failure happened — still surfaces the status-0 error,
because the 2xx body's parse failure lands in the final catch. -/
theorem status_zero_without_transport_cex :
    (request "/api/v1/trips" ⟨[]⟩ true true
      ⟨some (.str "a1"), some (.str "r1"), some (.parsed (pairVal "a1" "r1"))⟩
      ⟨fun _ => .success ⟨200, "OK", "oops", none⟩⟩ 0).result =
      .error networkErrorVal ∧
    (⟨fun _ => .success ⟨200, "OK", "oops", none⟩⟩ : Wire).outcomes 0 =
      .success ⟨200, "OK", "oops", none⟩ ∧
    (request "/api/v1/trips" ⟨[]⟩ true true
      ⟨some (.str "a1"), some (.str "r1"), some (.parsed (pairVal "a1" "r1"))⟩
      ⟨fun _ => .success ⟨200, "OK", "oops", none⟩⟩ 0).next = 1 :=
  ⟨rfl, rfl, rfl⟩

/-- C6 as amended: a transport failure on the fetch surfaces as
{status: 0, message: 'Network error. Please check your connection.'}
with the state unchanged; and every status-0 error a request surfaces is
exactly that network error object, produced only by the final catch — but
not only for transport failures, since a 2xx body parse failure produces
it as well. -/
theorem transport_failure_status_zero (e : String) (o : RequestOptions)
    (a r : Bool) (st : ClientState) (wire : Wire) (k : Nat) :
    (wire.outcomes k = .networkFailure →
      (request e o a r st wire k).result = .error networkErrorVal ∧
      (request e o a r st wire k).state = st ∧
      (request e o a r st wire k).next = k + 1) ∧
    (∀ er, (request e o a r st wire k).result = .error er →
      er.getField "status" = some (.num 0) → er = networkErrorVal) := by
  constructor
  · intro h
    have key := requestAux_netfail e o a (if r then 1 else 0) st wire k h
    refine ⟨?_, ?_, ?_⟩
    · show (requestAux e o a (if r then 1 else 0) st wire k).result = _
      rw [key]
    · show (requestAux e o a (if r then 1 else 0) st wire k).state = st
      rw [key]
    · show (requestAux e o a (if r then 1 else 0) st wire k).next = k + 1
      rw [key]
  · intro er h hz
    obtain ⟨x, hx⟩ :=
      requestAux_result_shape e o a (if r then 1 else 0) st wire k
    have h2 : catchAll x = .error er := by
      rw [← hx]
      exact h
    exact catchAll_error_status_zero x er h2 hz

/-- Witness for the amended C6: a transport failure on the first fetch of
an authenticated call yields the status-0 network error, unchanged state,
one consumed outcome. -/
theorem transport_failure_status_zero_witness :
    (request "/api/v1/users/me" ⟨[]⟩ true true clearedState
      ⟨fun _ => .networkFailure⟩ 0).result = .error networkErrorVal ∧
    (request "/api/v1/users/me" ⟨[]⟩ true true clearedState
      ⟨fun _ => .networkFailure⟩ 0).state = clearedState ∧
    (request "/api/v1/users/me" ⟨[]⟩ true true clearedState
      ⟨fun _ => .networkFailure⟩ 0).next = 0 + 1 :=
  (transport_failure_status_zero "/api/v1/users/me" ⟨[]⟩ true true
    clearedState ⟨fun _ => .networkFailure⟩ 0).1 rfl

/-- Counterexample to C7's verbatim propagation: a 404 whose body parses
as {status: 500, message: "m"} is thrown with `status` overridden to the
HTTP status 404 — the body's own `status` field is not propagated. -/
theorem error_body_status_overridden_cex :
    (request "/api/v1/auth/register" ⟨[]⟩ true true
      ⟨some (.str "a1"), some (.str "r1"), some (.parsed (pairVal "a1" "r1"))⟩
      ⟨fun _ => .success ⟨404, "Not Found", "x",
        some (.obj [("status", .num 500), ("message", .str "m")])⟩⟩
      0).result =
      .error (.obj [("status", .num 404), ("message", .str "m")]) := rfl

/-- C7 as amended: a non-success response outside the handled 401 case
(with a nonzero status, so the thrown error's status is truthy and the
final catch rethrows it) fails with an error built from the parsed body
by spreading its fields and then setting `status` to the response's HTTP
status — every field other than `status` propagates verbatim — or, when
the body does not parse, from the status line. -/
theorem error_normalized_from_body (e : String) (o : RequestOptions)
    (a r : Bool) (st : ClientState) (wire : Wire) (k : Nat)
    (resp : HttpResponse) (hresp : wire.outcomes k = .success resp)
    (hnotok : resp.ok = false) (hnz : resp.status ≠ 0)
    (hn401 : ¬(resp.status = 401 ∧ a = true ∧ r = true)) :
    (request e o a r st wire k).result = .error (errorFromResponse resp) ∧
    (request e o a r st wire k).state = st ∧
    (errorFromResponse resp).getField "status" = some (.num resp.status) ∧
    (∀ errorData, resp.parsed = some errorData →
      errorFromResponse resp = spreadWithStatus errorData resp.status) ∧
    (resp.parsed = none → errorFromResponse resp =
      .obj [("status", .num resp.status),
            ("message", .str resp.statusText)]) ∧
    (∀ fields key2, resp.parsed = some (.obj fields) → key2 ≠ "status" →
      (errorFromResponse resp).getField key2 =
        (JsVal.obj fields).getField key2) := by
  have hcond : ¬(resp.status = 401 ∧ a = true) ∨ (if r then 1 else 0) = 0 := by
    cases r with
    | true => exact Or.inl (fun h => hn401 ⟨h.1, h.2, rfl⟩)
    | false => exact Or.inr rfl
  have key := requestAux_success_no_retry e o a (if r then 1 else 0) st wire k
    resp hresp hcond
  have hrr : responseResult resp = .error (errorFromResponse resp) := by
    simp [responseResult, hnotok]
  have hstatus := getField_errorFromResponse_status resp
  have htruthy :
      truthyOpt ((errorFromResponse resp).getField "status") = true := by
    rw [hstatus]
    show (JsVal.num resp.status).truthy = true
    simp only [JsVal.truthy, bne_iff_ne, ne_eq, decide_eq_true_eq]
    exact_mod_cast hnz
  refine ⟨?_, ?_, hstatus, ?_, ?_, ?_⟩
  · show (requestAux e o a (if r then 1 else 0) st wire k).result = _
    rw [key]
    show catchAll (responseResult resp) = _
    rw [hrr, catchAll_error_truthy _ htruthy]
  · show (requestAux e o a (if r then 1 else 0) st wire k).state = st
    rw [key]
  · intro errorData hp
    simp [errorFromResponse, hp]
  · intro hp
    simp [errorFromResponse, hp, spreadWithStatus, setEntry]
  · intro fields key2 hp hkey
    have h1 : errorFromResponse resp =
        .obj (setEntry fields "status" (.num resp.status)) := by
      simp [errorFromResponse, hp, spreadWithStatus]
    rw [h1]
    show getEntry (setEntry fields "status" (.num resp.status)) key2 =
      getEntry fields key2
    exact getEntry_setEntry_other fields "status" key2 _ hkey

/-- Witness for the amended C7: a 500 with an empty (unparseable) body
fails with the error built from the status line. -/
theorem error_normalized_from_body_witness :
    (request "/api/v1/trips" ⟨[]⟩ true true clearedState
      ⟨fun _ => .success ⟨500, "Server Error", "", none⟩⟩ 0).result =
      .error (errorFromResponse ⟨500, "Server Error", "", none⟩) :=
  (error_normalized_from_body "/api/v1/trips" ⟨[]⟩ true true clearedState
    ⟨fun _ => .success ⟨500, "Server Error", "", none⟩⟩ 0
    ⟨500, "Server Error", "", none⟩ rfl rfl (by decide) (by simp)).1

/-- C8: a requiresAuth=false call leaves the client state unchanged,
never invokes the refresh coordinator and issues exactly one attempt
carrying exactly the base headers — the executor's Authorization branch
does not fire, so no Authorization header is present unless the caller
supplied one — regardless of the retry flag and of the response status,
401 included. -/
theorem noauth_never_refreshes (e : String) (o : RequestOptions) (r : Bool)
    (st : ClientState) (wire : Wire) (k : Nat) :
    (request e o false r st wire k).refreshes = 0 ∧
    (request e o false r st wire k).state = st ∧
    (request e o false r st wire k).attempts =
      [⟨requestUrl e, baseHeaders o⟩] ∧
    buildHeaders o false st = baseHeaders o ∧
    ((∀ p ∈ o.headers, p.1 ≠ "Authorization") →
      getEntry (baseHeaders o) "Authorization" = none) := by
  have key := requestAux_noauth e o (if r then 1 else 0) st wire k
  refine ⟨?_, ?_, ?_, by simp [buildHeaders], ?_⟩
  · show (requestAux e o false (if r then 1 else 0) st wire k).refreshes = 0
    rw [key]
  · show (requestAux e o false (if r then 1 else 0) st wire k).state = st
    rw [key]
  · show (requestAux e o false (if r then 1 else 0) st wire k).attempts = _
    rw [key]
  · intro hab
    unfold baseHeaders
    rw [getEntry_foldl_setEntry_absent o.headers "Authorization" hab]
    rfl

/-- Witness for C8: with no caller-supplied headers, the headers sent by
an unauthenticated call contain no Authorization entry. -/
theorem noauth_never_refreshes_witness :
    getEntry (baseHeaders ⟨[]⟩) "Authorization" = none :=
  (noauth_never_refreshes "/api/v1/auth/login" ⟨[]⟩ true clearedState
    ⟨fun _ => .success ⟨401, "Unauthorized", "", none⟩⟩ 0).2.2.2.2
    (by simp)

/-- Counterexample to C9: the persisted record `42` parses as JSON but is
not a valid pair; load treats the credentials as absent, yet the stored
record is NOT cleared — against the claimed clearing side effect for a
value that fails to parse as a valid pair. -/
theorem corrupt_parsed_record_kept_cex :
    (constructClient (some (.parsed (.num 42)))).accessToken = none ∧
    (constructClient (some (.parsed (.num 42)))).refreshToken = none ∧
    (constructClient (some (.parsed (.num 42)))).storage =
      some (.parsed (.num 42)) := ⟨rfl, rfl, rfl⟩

/-- C9 as amended: load returns the last saved pair; with nothing saved
it changes nothing (absent stays absent); a persisted value that fails
JSON parsing — or one that parses to `null`, whose subsequent property
access throws the `TypeError` caught by the same catch — is treated as
absent and the record is cleared; but a persisted value that parses to
any other non-pair value is loaded field-wise as-is (possibly partial,
possibly absent) and the record is kept. -/
theorem load_contract :
    (∀ st : ClientState, st.storage = none → loadTokens st = st) ∧
    (∀ st : ClientState, st.storage = some .unparseable →
      loadTokens st = clearedState) ∧
    (∀ st : ClientState, st.storage = some (.parsed .null) →
      loadTokens st = clearedState) ∧
    (∀ (st : ClientState) v, st.storage = some (.parsed v) →
      v.isNull = false →
      (loadTokens st).accessToken = v.getField "accessToken" ∧
      (loadTokens st).refreshToken = v.getField "refreshToken" ∧
      (loadTokens st).storage = st.storage) ∧
    (∀ (st : ClientState) tokens, isCredentialPair tokens = true →
      loadTokens (setTokens tokens st) = setTokens tokens st) := by
  refine ⟨?_, ?_, ?_, ?_, ?_⟩
  · intro st h
    simp [loadTokens, h]
  · intro st h
    simp [loadTokens, h, clearTokens, clearedState]
  · intro st h
    simp [loadTokens, h, JsVal.isNull, clearTokens, clearedState]
  · intro st v h hn
    refine ⟨?_, ?_, ?_⟩ <;> simp [loadTokens, h, hn]
  · intro st tokens hv
    obtain ⟨fields, rfl⟩ := isCredentialPair_obj tokens hv
    rfl

/-- Witness for the amended C9: a record parsing to `null` is cleared by
load — property access on the parsed `null` throws into the catch. -/
theorem load_contract_witness :
    loadTokens ⟨some (.str "a"), some (.str "r"),
        some (.parsed .null)⟩ = clearedState :=
  load_contract.2.2.1 ⟨some (.str "a"), some (.str "r"),
    some (.parsed .null)⟩ rfl

/-- C10: the final catch rethrows unchanged any exception whose `status`
field is truthy — in particular the session-expired 401 and the
body-derived errors the executor itself throws — and replaces an
exception with no truthy `status` field by the status-0 network error;
hence every error a request surfaces either carries a truthy status or
is exactly the network error object. -/
theorem catch_rethrows_truthy_status :
    (∀ er : JsVal, truthyOpt (er.getField "status") = true →
      catchAll (.error er) = .error er) ∧
    (∀ er : JsVal, truthyOpt (er.getField "status") = false →
      catchAll (.error er) = .error networkErrorVal) ∧
    (∀ (e : String) (o : RequestOptions) (a r : Bool) (st : ClientState)
      (wire : Wire) (k : Nat) (er : JsVal),
      (request e o a r st wire k).result = .error er →
      truthyOpt (er.getField "status") = true ∨ er = networkErrorVal) := by
  refine ⟨catchAll_error_truthy, catchAll_error_falsy, ?_⟩
  intro e o a r st wire k er h
  obtain ⟨x, hx⟩ :=
    requestAux_result_shape e o a (if r then 1 else 0) st wire k
  have h2 : catchAll x = .error er := by
    rw [← hx]
    exact h
  exact catchAll_error_cases x er h2

/-- Witness for C10: the session-expired error, whose status 401 is
truthy, passes through the final catch unchanged. -/
theorem catch_rethrows_truthy_status_witness :
    catchAll (.error sessionExpiredVal) = .error sessionExpiredVal :=
  catch_rethrows_truthy_status.1 sessionExpiredVal rfl

end SafeWalk
